import Mathlib

/-!
Verification of the threshold-sweep evaluation script `model/val.py`.

The script post-processes model logits into a three-level segmentation mask,
accumulates confusion-matrix counts over a validation set, and derives eight
metrics per decision threshold.  Images are modelled as lists of pixel values:
logits as elements of a linear order (the script uses floating-point numbers),
labels and segmentations as natural numbers (the script uses uint8).
-/

namespace Val

/-- Embedding of `post(logits, label, threshold)` at a single pixel.
The source builds an array of 127s, overwrites pixels with
`logits >= threshold` to 255, and finally overwrites pixels with
`label == 0` to 0; the three steps are mirrored in order. -/
def postPixel {α : Type} [LinearOrder α] (t : α) (lg : α) (lb : ℕ) : ℕ :=
  let s0 : ℕ := 127
  let s1 : ℕ := if t ≤ lg then 255 else s0
  if lb = 0 then 0 else s1

/-- Embedding of `post(logits, label, threshold)`: elementwise over the
two same-shape arrays. -/
def post {α : Type} [LinearOrder α] (logits : List α) (label : List ℕ)
    (threshold : α) : List ℕ :=
  List.zipWith (fun lg lb => postPixel threshold lg lb) logits label

/-- Embedding of `compute_confusion_matrix(segmentation, label)`.
Each numpy mask comparison becomes an elementwise Boolean list,
`np.logical_and` becomes `zipWith (· && ·)` fused into one `zipWith`,
and `np.sum` over a Boolean mask counts the `true` entries.
Returns `(tp, fp, tn, fn)`. -/
def compute_confusion_matrix (segmentation label : List ℕ) : ℕ × ℕ × ℕ × ℕ :=
  let tp := (List.zipWith (fun s l => s == 255 && l == 255) segmentation label).count true
  let fp := (List.zipWith (fun s l => s == 255 && !(l == 255)) segmentation label).count true
  let tn := (List.zipWith (fun s l => s == 127 && l == 127) segmentation label).count true
  let fn := (List.zipWith (fun s l => s == 127 && !(l == 127)) segmentation label).count true
  (tp, fp, tn, fn)

/-- Embedding of `epsilon = 1e-7` from `compute_metrics`. -/
noncomputable def epsilon : ℝ := 1 / 10 ^ 7

/-- Embedding of `compute_metrics(tp, fp, tn, fn)`: the eight derived
metrics in the order the source returns them,
`[iou, f1, g_mean, accuracy, sensitivity, specificity, precision, recall]`. -/
noncomputable def compute_metrics (tp fp tn fn : ℝ) : List ℝ :=
  let accuracy := (tp + tn) / (tp + tn + fp + fn + epsilon)
  let sensitivity := tp / (tp + fn + epsilon)
  let specificity := tn / (fp + tn + epsilon)
  let precision := tp / (tp + fp + epsilon)
  let «recall» := sensitivity
  let iou := tp / (tp + fp + fn + epsilon)
  let f1 := (2 * precision * «recall») / (precision + «recall» + epsilon)
  let g_mean := Real.sqrt (sensitivity * specificity)
  [iou, f1, g_mean, accuracy, sensitivity, specificity, precision, «recall»]

/-- Embedding of `np.linspace(a, b, n)`: `n` evenly spaced points from `a`
to `b` inclusive.  For `n = 1` numpy returns `[a]`, which the formula also
yields since the `i = 0` term is `a` regardless of the step. -/
noncomputable def linspace (a b : ℝ) (n : ℕ) : List ℝ :=
  (List.range n).map (fun i : ℕ => a + (i : ℝ) * ((b - a) / ((n : ℝ) - 1)))

/-- Embedding of `probs = np.linspace(0.001, 0.999, number_of_thresholds)`,
with the count left as a parameter. -/
noncomputable def probs (n : ℕ) : List ℝ :=
  linspace (1 / 1000) (999 / 1000) n

/-- Embedding of the probability-to-logit transform
`np.log(p) - np.log(1 - p)` applied to one probability. -/
noncomputable def logit (p : ℝ) : ℝ :=
  Real.log p - Real.log (1 - p)

/-- Embedding of `thresholds = np.log(probs) - np.log(1 - probs)`. -/
noncomputable def thresholds (n : ℕ) : List ℝ :=
  (probs n).map logit

/-- Summing per-example confusion matrices elementwise, as the driver loop
does with `confusion_matrix += compute_confusion_matrix(...)` over a list of
(segmentation, label) pairs. -/
def accumulate (examples : List (List ℕ × List ℕ)) : ℕ × ℕ × ℕ × ℕ :=
  (examples.map (fun ex => compute_confusion_matrix ex.1 ex.2)).sum

/-- Embedding of `label.max()`: the largest pixel value of a label. -/
def labelMax (label : List ℕ) : ℕ :=
  label.foldr max 0

/-- One iteration of the inner example loop at a fixed threshold: the state
is the pair (confusion_matrix, confusion_matrix2); the second accumulator is
only updated when the label contains a mass pixel (`label.max() == 255`). -/
def innerStep {α : Type} [LinearOrder α] (t : α)
    (acc : (ℕ × ℕ × ℕ × ℕ) × (ℕ × ℕ × ℕ × ℕ)) (ex : List α × List ℕ) :
    (ℕ × ℕ × ℕ × ℕ) × (ℕ × ℕ × ℕ × ℕ) :=
  let cm := compute_confusion_matrix (post ex.1 ex.2 t) ex.2
  (acc.1 + cm, if labelMax ex.2 = 255 then acc.2 + cm else acc.2)

/-- Embedding of the inner example loop at a fixed threshold, starting from
two zeroed accumulators. -/
def innerLoop {α : Type} [LinearOrder α] (t : α) (examples : List (List α × List ℕ)) :
    (ℕ × ℕ × ℕ × ℕ) × (ℕ × ℕ × ℕ × ℕ) :=
  examples.foldl (innerStep t) ((0, 0, 0, 0), (0, 0, 0, 0))

/-! Helper lemmas. -/

/-- Counting `true` in a `zipWith` of a Boolean mask equals counting the
pairs of the zipped lists that satisfy the predicate. -/
theorem count_true_zipWith (f : ℕ → ℕ → Bool) (s l : List ℕ) :
    (List.zipWith f s l).count true = (s.zip l).countP (fun p => f p.1 p.2) := by
  induction s generalizing l with
  | nil => simp
  | cons a s ih =>
    cases l with
    | nil => simp
    | cons b l => simp [List.count_cons, List.countP_cons, ih]

/-- The logit transform is strictly monotone on (0, 1). -/
theorem logit_lt_logit {p q : ℝ} (hp : 0 < p) (hpq : p < q) (hq : q < 1) :
    logit p < logit q := by
  have h1 : Real.log p < Real.log q := Real.log_lt_log hp hpq
  have h2 : Real.log (1 - q) < Real.log (1 - p) :=
    Real.log_lt_log (by linarith) (by linarith)
  unfold logit
  linarith

/-- The logit transform is monotone on (0, 1). -/
theorem logit_le_logit {p q : ℝ} (hp : 0 < p) (hpq : p ≤ q) (hq : q < 1) :
    logit p ≤ logit q := by
  rcases lt_or_eq_of_le hpq with h | h
  · exact (logit_lt_logit hp h hq).le
  · rw [h]

/-- The logit of one half is zero. -/
theorem logit_half : logit (1 / 2) = 0 := by
  unfold logit
  norm_num

/-- Every sweep probability lies in [0.001, 0.999]. -/
theorem probs_bounds (n : ℕ) : ∀ p ∈ probs n, 1 / 1000 ≤ p ∧ p ≤ 999 / 1000 := by
  intro p hp
  unfold probs linspace at hp
  simp only [List.mem_map, List.mem_range] at hp
  obtain ⟨i, hi, rfl⟩ := hp
  rcases Nat.eq_zero_or_pos i with hi0 | hipos
  · subst hi0
    norm_num
  · have hn2 : 2 ≤ n := by omega
    have hnR : (2 : ℝ) ≤ (n : ℝ) := by exact_mod_cast hn2
    have hstep : (0 : ℝ) < (999 / 1000 - 1 / 1000) / ((n : ℝ) - 1) :=
      div_pos (by norm_num) (by linarith)
    constructor
    · have hnn : (0 : ℝ) ≤ (i : ℝ) * ((999 / 1000 - 1 / 1000) / ((n : ℝ) - 1)) :=
        mul_nonneg (Nat.cast_nonneg i) hstep.le
      linarith
    · have hin : (i : ℝ) ≤ (n : ℝ) - 1 := by
        have : (i : ℝ) + 1 ≤ (n : ℝ) := by exact_mod_cast hi
        linarith
      have hmul : (i : ℝ) * ((999 / 1000 - 1 / 1000) / ((n : ℝ) - 1))
          ≤ ((n : ℝ) - 1) * ((999 / 1000 - 1 / 1000) / ((n : ℝ) - 1)) :=
        mul_le_mul_of_nonneg_right hin hstep.le
      have hne : ((n : ℝ) - 1) ≠ 0 := by linarith
      rw [mul_comm ((n : ℝ) - 1), div_mul_cancel₀ _ hne] at hmul
      linarith

/-- The sweep probabilities are strictly increasing. -/
theorem probs_pairwise (n : ℕ) : (probs n).Pairwise (· < ·) := by
  unfold probs linspace
  rw [List.pairwise_map]
  refine List.Pairwise.imp_of_mem ?_ (List.pairwise_lt_range n)
  intro i j hi hj hij
  have hjn : j < n := List.mem_range.mp hj
  have hn2 : 2 ≤ n := by omega
  have hnR : (2 : ℝ) ≤ (n : ℝ) := by exact_mod_cast hn2
  have hstep : (0 : ℝ) < (999 / 1000 - 1 / 1000) / ((n : ℝ) - 1) :=
    div_pos (by norm_num) (by linarith)
  have hij' : (i : ℝ) < (j : ℝ) := by exact_mod_cast hij
  have := mul_lt_mul_of_pos_right hij' hstep
  linarith

/-- The sweep thresholds are strictly increasing. -/
theorem thresholds_pairwise (n : ℕ) : (thresholds n).Pairwise (· < ·) := by
  unfold thresholds
  rw [List.pairwise_map]
  refine List.Pairwise.imp_of_mem ?_ (probs_pairwise n)
  intro p q hp hq hpq
  obtain ⟨hp1, hp2⟩ := probs_bounds n p hp
  obtain ⟨hq1, hq2⟩ := probs_bounds n q hq
  exact logit_lt_logit (by linarith) hpq (by linarith)

/-- Every sweep threshold lies between logit 0.001 and logit 0.999. -/
theorem thresholds_bounds (n : ℕ) :
    ∀ th ∈ thresholds n, logit (1 / 1000) ≤ th ∧ th ≤ logit (999 / 1000) := by
  intro th hth
  unfold thresholds at hth
  simp only [List.mem_map] at hth
  obtain ⟨p, hp, rfl⟩ := hth
  obtain ⟨h1, h2⟩ := probs_bounds n p hp
  exact ⟨logit_le_logit (by norm_num) h1 (by linarith),
    logit_le_logit (by linarith) h2 (by norm_num)⟩

/-- Folding the inner loop step keeps the mass-only accumulator below the
all-examples accumulator, starting from any state already in that relation. -/
theorem foldl_innerStep_le {α : Type} [LinearOrder α] (t : α)
    (l : List (List α × List ℕ)) :
    ∀ acc : (ℕ × ℕ × ℕ × ℕ) × (ℕ × ℕ × ℕ × ℕ), acc.2 ≤ acc.1 →
      (l.foldl (innerStep t) acc).2 ≤ (l.foldl (innerStep t) acc).1 := by
  induction l with
  | nil => exact fun acc hacc => hacc
  | cons ex l ih =>
    intro acc hacc
    rw [List.foldl_cons]
    apply ih
    unfold innerStep
    dsimp only
    split
    · exact add_le_add_right hacc _
    · exact le_trans hacc (le_add_of_nonneg_right (by simp [Prod.le_def]))

/-! Claim theorems. -/

/-- C1: for same-shape inputs, the segmentation returned by post is,
pixel by pixel, 0 where the label is 0, and otherwise 255 when the logit is
at least the threshold and 127 when it is below. -/
theorem post_pointwise {α : Type} [LinearOrder α] (logits : List α)
    (label : List ℕ) (t : α) (h : logits.length = label.length)
    (i : ℕ) (lg : α) (lb : ℕ)
    (hlg : logits[i]? = some lg) (hlb : label[i]? = some lb) :
    (post logits label t)[i]?
      = some (if lb = 0 then 0 else if t ≤ lg then 255 else 127) := by
  unfold post
  rw [List.getElem?_zipWith_eq_some]
  exact ⟨lg, lb, hlg, hlb, rfl⟩

/-- Witness for C1 at a concrete pixel. -/
theorem post_pointwise_witness :
    (post ([-5, 5] : List ℤ) [0, 255] 0)[1]?
      = some (if (255 : ℕ) = 0 then 0 else if (0 : ℤ) ≤ 5 then 255 else 127) :=
  post_pointwise ([-5, 5] : List ℤ) [0, 255] 0 rfl 1 5 255 rfl rfl

/-- C4: for same-shape inputs, the four counts of the confusion matrix of
post's segmentation against the label sum to the number of pixels whose
label is nonzero; pixels with label 0 contribute to none of the counts. -/
theorem post_confusion_total {α : Type} [LinearOrder α] (logits : List α)
    (label : List ℕ) (t : α) (h : logits.length = label.length) :
    (compute_confusion_matrix (post logits label t) label).1
      + (compute_confusion_matrix (post logits label t) label).2.1
      + (compute_confusion_matrix (post logits label t) label).2.2.1
      + (compute_confusion_matrix (post logits label t) label).2.2.2
      = label.countP (fun v => !(v == 0)) := by
  induction logits generalizing label with
  | nil =>
    have hl : label = [] := by
      cases label with
      | nil => rfl
      | cons b l => simp at h
    subst hl
    simp [post, compute_confusion_matrix]
  | cons lg logits ih =>
    cases label with
    | nil => simp at h
    | cons lb lbl =>
      have h' : logits.length = lbl.length := by simpa using h
      have IH := ih lbl h'
      by_cases hlb : lb = 0
      · subst hlb
        simp [post, postPixel, compute_confusion_matrix, List.count_cons,
          List.countP_cons] at IH ⊢
        omega
      · by_cases hth : t ≤ lg
        · by_cases h255 : lb = 255
          · subst h255
            simp [post, postPixel, compute_confusion_matrix, List.count_cons,
              List.countP_cons, hth] at IH ⊢
            omega
          · simp [post, postPixel, compute_confusion_matrix, List.count_cons,
              List.countP_cons, hth, hlb, h255] at IH ⊢
            omega
        · by_cases h127 : lb = 127
          · subst h127
            simp [post, postPixel, compute_confusion_matrix, List.count_cons,
              List.countP_cons, hth] at IH ⊢
            omega
          · simp [post, postPixel, compute_confusion_matrix, List.count_cons,
              List.countP_cons, hth, hlb, h127] at IH ⊢
            omega

/-- Witness for C4 at concrete arrays. -/
theorem post_confusion_total_witness :
    (compute_confusion_matrix (post ([-5, 5] : List ℤ) [0, 255] 0) [0, 255]).1
      + (compute_confusion_matrix (post ([-5, 5] : List ℤ) [0, 255] 0) [0, 255]).2.1
      + (compute_confusion_matrix (post ([-5, 5] : List ℤ) [0, 255] 0) [0, 255]).2.2.1
      + (compute_confusion_matrix (post ([-5, 5] : List ℤ) [0, 255] 0) [0, 255]).2.2.2
      = List.countP (fun v => !(v == 0)) [0, 255] :=
  post_confusion_total [-5, 5] [0, 255] 0 rfl

/-- C10: after any prefix of the example list, the mass-only accumulator is
elementwise at most the all-examples accumulator: each guarded addition into
the second accumulator adds the same non-negative 4-tuple that was added
into the first. -/
theorem innerLoop_take_invariant {α : Type} [LinearOrder α] (t : α)
    (examples : List (List α × List ℕ)) (k : ℕ) :
    (innerLoop t (examples.take k)).2 ≤ (innerLoop t (examples.take k)).1 :=
  foldl_innerStep_le t (examples.take k) _ (le_refl _)

/-- C6: the sweep produces n probabilities spanning [0.001, 0.999], strictly
increasing, with strictly increasing logit thresholds; the logit map is
strictly increasing on (0, 1), every threshold is bounded between
logit 0.001 and logit 0.999 (hence finite), and logit (1/2) = 0. -/
theorem threshold_sweep (n : ℕ) :
    (probs n).length = n ∧
    (∀ p ∈ probs n, 1 / 1000 ≤ p ∧ p ≤ 999 / 1000) ∧
    (probs n).Pairwise (· < ·) ∧
    (thresholds n).Pairwise (· < ·) ∧
    (∀ p q : ℝ, 0 < p → p < q → q < 1 → logit p < logit q) ∧
    (∀ th ∈ thresholds n, logit (1 / 1000) ≤ th ∧ th ≤ logit (999 / 1000)) ∧
    logit (1 / 2) = 0 :=
  ⟨by simp [probs, linspace], probs_bounds n, probs_pairwise n,
    thresholds_pairwise n, fun p q hp hpq hq => logit_lt_logit hp hpq hq,
    thresholds_bounds n, logit_half⟩

/-- Witness for C6: the sweep of size 3, with the monotonicity conjunct
instantiated at the concrete pair (1/4, 1/2). -/
theorem threshold_sweep_witness :
    (probs 3).length = 3 ∧ logit (1 / 4) < logit (1 / 2) ∧ logit (1 / 2) = 0 :=
  ⟨(threshold_sweep 3).1,
    (threshold_sweep 3).2.2.2.2.1 (1 / 4) (1 / 2) (by norm_num) (by norm_num)
      (by norm_num),
    (threshold_sweep 3).2.2.2.2.2.2⟩

/-- C7: on label [0,127,127,255,255], logits [-5,-5,5,-5,5] and threshold 0,
post returns [0,127,255,127,255]; the confusion matrix of that segmentation
against the label is tp=1, fp=1, tn=1, fn=1; and pixel 0 contributes to no
count: dropping it leaves all four counts unchanged. -/
theorem scenario_concrete :
    post ([-5, -5, 5, -5, 5] : List ℤ) [0, 127, 127, 255, 255] 0
        = [0, 127, 255, 127, 255] ∧
    compute_confusion_matrix [0, 127, 255, 127, 255] [0, 127, 127, 255, 255]
        = (1, 1, 1, 1) ∧
    compute_confusion_matrix [127, 255, 127, 255] [127, 127, 255, 255]
        = (1, 1, 1, 1) := by
  refine ⟨by decide, by decide, by decide⟩

/-- C9: post is deterministic: equal logits, label and threshold inputs give
equal outputs.  Side-effect freedom holds by construction of the embedding:
the source allocates a fresh output array (`np.ones`) and never writes into
`logits` or `label`, so `post` is a pure function of its arguments. -/
theorem post_deterministic {α : Type} [LinearOrder α]
    (logits logits2 : List α) (label label2 : List ℕ) (t t2 : α)
    (h1 : logits = logits2) (h2 : label = label2) (h3 : t = t2) :
    post logits label t = post logits2 label2 t2 := by
  rw [h1, h2, h3]

/-- Witness for C9 at concrete inputs. -/
theorem post_deterministic_witness :
    post ([-1, 1] : List ℤ) [0, 255] 0 = post ([-1, 1] : List ℤ) [0, 255] 0 :=
  post_deterministic [-1, 1] [-1, 1] [0, 255] [0, 255] 0 0 rfl rfl rfl

/-- C5: on the all-zero confusion matrix every one of the eight metrics is 0;
the epsilon in each denominator prevents division by zero and the geometric
mean of two zeros is 0. -/
theorem compute_metrics_all_zero :
    compute_metrics 0 0 0 0 = [0, 0, 0, 0, 0, 0, 0, 0] := by
  simp [compute_metrics, epsilon]

/-- C2: compute_metrics returns exactly the eight claimed ratios, each with
the additive epsilon 1e-7 in the denominator, in the fixed order
[iou, f1, g_mean, accuracy, sensitivity, specificity, precision, recall]. -/
theorem compute_metrics_formulas (tp fp tn fn : ℝ)
    (htp : 0 ≤ tp) (hfp : 0 ≤ fp) (htn : 0 ≤ tn) (hfn : 0 ≤ fn) :
    compute_metrics tp fp tn fn =
      [ tp / (tp + fp + fn + 1 / 10 ^ 7),
        (2 * (tp / (tp + fp + 1 / 10 ^ 7)) * (tp / (tp + fn + 1 / 10 ^ 7))) /
          (tp / (tp + fp + 1 / 10 ^ 7) + tp / (tp + fn + 1 / 10 ^ 7) + 1 / 10 ^ 7),
        Real.sqrt ((tp / (tp + fn + 1 / 10 ^ 7)) * (tn / (fp + tn + 1 / 10 ^ 7))),
        (tp + tn) / (tp + tn + fp + fn + 1 / 10 ^ 7),
        tp / (tp + fn + 1 / 10 ^ 7),
        tn / (fp + tn + 1 / 10 ^ 7),
        tp / (tp + fp + 1 / 10 ^ 7),
        tp / (tp + fn + 1 / 10 ^ 7) ] := rfl

/-- Witness for C2 at the concrete confusion matrix (1, 1, 1, 1). -/
theorem compute_metrics_formulas_witness :
    compute_metrics 1 1 1 1 =
      [ 1 / (1 + 1 + 1 + 1 / 10 ^ 7),
        (2 * (1 / (1 + 1 + 1 / 10 ^ 7)) * (1 / (1 + 1 + 1 / 10 ^ 7))) /
          (1 / (1 + 1 + 1 / 10 ^ 7) + 1 / (1 + 1 + 1 / 10 ^ 7) + 1 / 10 ^ 7),
        Real.sqrt ((1 / (1 + 1 + 1 / 10 ^ 7)) * (1 / (1 + 1 + 1 / 10 ^ 7))),
        (1 + 1) / (1 + 1 + 1 + 1 + 1 / 10 ^ 7),
        1 / (1 + 1 + 1 / 10 ^ 7),
        1 / (1 + 1 + 1 / 10 ^ 7),
        1 / (1 + 1 + 1 / 10 ^ 7),
        1 / (1 + 1 + 1 / 10 ^ 7) ] :=
  compute_metrics_formulas 1 1 1 1 (by norm_num) (by norm_num) (by norm_num)
    (by norm_num)

/-- C3: for same-shape inputs, compute_confusion_matrix returns the 4-tuple
(tp, fp, tn, fn) counting the pixels with (seg=255, label=255), (seg=255,
label different from 255), (seg=127, label=127) and (seg=127, label different
from 127) respectively. -/
theorem compute_confusion_matrix_counts (seg label : List ℕ)
    (h : seg.length = label.length) :
    compute_confusion_matrix seg label =
      ( (seg.zip label).countP (fun p => p.1 == 255 && p.2 == 255),
        (seg.zip label).countP (fun p => p.1 == 255 && !(p.2 == 255)),
        (seg.zip label).countP (fun p => p.1 == 127 && p.2 == 127),
        (seg.zip label).countP (fun p => p.1 == 127 && !(p.2 == 127)) ) := by
  simp [compute_confusion_matrix, count_true_zipWith]

/-- Witness for C3 at concrete arrays. -/
theorem compute_confusion_matrix_counts_witness :
    compute_confusion_matrix [255, 127] [255, 0] =
      ( (([255, 127].zip [255, 0]).countP (fun p => p.1 == 255 && p.2 == 255)),
        (([255, 127].zip [255, 0]).countP (fun p => p.1 == 255 && !(p.2 == 255))),
        (([255, 127].zip [255, 0]).countP (fun p => p.1 == 127 && p.2 == 127)),
        (([255, 127].zip [255, 0]).countP (fun p => p.1 == 127 && !(p.2 == 127))) ) :=
  compute_confusion_matrix_counts [255, 127] [255, 0] rfl

/-- C8: confusion-matrix accumulation is order-independent: permuting the
list of (segmentation, label) pairs does not change the elementwise sum of
the per-example 4-tuples. -/
theorem accumulate_perm (l1 l2 : List (List ℕ × List ℕ)) (h : l1.Perm l2) :
    accumulate l1 = accumulate l2 :=
  List.Perm.sum_eq (h.map fun ex => compute_confusion_matrix ex.1 ex.2)

/-- Witness for C8: swapping two concrete examples. -/
theorem accumulate_perm_witness :
    accumulate [([255], [255]), ([127], [0])]
      = accumulate [([127], [0]), ([255], [255])] :=
  accumulate_perm [([255], [255]), ([127], [0])] [([127], [0]), ([255], [255])]
    (List.Perm.swap ([127], [0]) ([255], [255]) [])

end Val
